import Mathlib

/-!
Shallow embedding of `src/script.py` — a bridge event listener that scans a
source chain for `TokensLocked` events, validates each event with an external
oracle, and simulates a destination-chain mint action.  The embedding follows
the Python code (`BridgeEventListener`): heights are `Int` (Python ints; the
startup checkpoint is `latest - 1`), the processed-transaction set
(`self.processed_txs`, a Python `set` of hex strings) is a list of strings with
membership lookup, and the external collaborators (height query, log fetch,
oracle HTTP response) are inputs to each cycle.
-/

namespace Bridge

/-- Configuration slice used by the modelled code paths (`CONFIG` in the
source): source chain name, oracle URL and API key.  `oracleUrl = none` models
a config with no `"url"` key; the source also treats an empty string as
missing (`if not url`). -/
structure Config where
  sourceChainName : String
  destChainName : String
  oracleUrl : Option String
  oracleApiKey : Option String
deriving DecidableEq, Repr

/-- Normalized event record: `event['transactionHash'].hex()`, the recipient
bytes, and the `uint256` amount from `event['args']`. -/
structure EventData where
  txHash : String
  recipient : String
  amount : Nat
deriving DecidableEq, Repr

/-- Result of the oracle HTTP POST as seen by `_validate_with_oracle`.
`response status body`: an HTTP response arrived with the given status code;
`body = some b` means the body parsed as JSON and its `isValid` field is
truthy iff `b` (a missing field is `some false`, via `.get("isValid", False)`);
`body = none` means the body is malformed JSON (`response.json()` raises a
`JSONDecodeError`, a `RequestException` subclass, caught by the handler).
`transportError` covers connection errors and timeouts
(`requests.exceptions.RequestException`). -/
inductive OracleResult where
  | response (status : Nat) (body : Option Bool)
  | transportError
deriving DecidableEq, Repr

/-- A JSON value in the oracle request payload: either a string or a number.
The distinction matters because the source serializes `amount` as a raw
integer, not as a string. -/
inductive JsonValue where
  | str (s : String)
  | num (n : Nat)
deriving DecidableEq, Repr

/-- The HTTP request `_validate_with_oracle` issues: `requests.post(url,
json=payload, headers=headers)` with `payload = {transactionHash: ...hex(),
sourceChain: name, amount: args['amount']}` and header
`{"x-api-key": api_config.get("api_key", "")}`. -/
structure OracleRequest where
  method : String
  url : String
  apiKeyHeader : String
  transactionHash : JsonValue
  sourceChain : JsonValue
  amount : JsonValue
deriving DecidableEq, Repr

/-- Builds the oracle request exactly as lines 163-168 of the source do.
Note `amount := .num e.amount`: the Python payload carries the raw integer
`event_data['args']['amount']`, not its decimal-string rendering. -/
def buildOracleRequest (cfg : Config) (url : String) (e : EventData) : OracleRequest :=
  { method := "POST"
    url := url
    apiKeyHeader := cfg.oracleApiKey.getD ""
    transactionHash := .str e.txHash
    sourceChain := .str cfg.sourceChainName
    amount := .num e.amount }

/-- Evaluates the oracle response as lines 177-186 do: accepted iff the status
is 200 and the parsed body's `isValid` is truthy; non-200 statuses, malformed
bodies and transport errors all yield `false` (the `except` branch logs
"Assuming failure for security"). -/
def evalOracleResponse : OracleResult → Bool
  | .response status body =>
      if status = 200 then
        match body with
        | some b => b
        | none => false
      else false
  | .transportError => false

/-- `_validate_with_oracle`, split into the request it issues (if any) and the
boolean it returns.  With no configured URL (or an empty one, Python falsy) no
request is issued and the function returns `True`. -/
def oracleCall (cfg : Config) (e : EventData) (r : OracleResult) :
    Option OracleRequest × Bool :=
  match cfg.oracleUrl with
  | none => (none, true)
  | some url =>
      if url = "" then (none, true)
      else (some (buildOracleRequest cfg url e), evalOracleResponse r)

/-- The boolean returned by `_validate_with_oracle`. -/
def validateWithOracle (cfg : Config) (e : EventData) (r : OracleResult) : Bool :=
  (oracleCall cfg e r).2

/-- Outcome of `_process_event` for one event: skipped by the dedup check,
acted upon (validation passed, destination action simulated), or rejected
(validation returned `False`). -/
inductive EventOutcome where
  | skippedDuplicate
  | acted
  | rejected
deriving DecidableEq, Repr

/-- Result of `_process_event`: the processed-transaction set afterwards,
whether an oracle HTTP request was actually issued, and the outcome. -/
structure ProcessResult where
  processed : List String
  validatorRequested : Bool
  outcome : EventOutcome
deriving DecidableEq, Repr

/-- `_process_event` (lines 210-226): return early if `tx_hash` is already in
`processed_txs`; otherwise call `_validate_with_oracle`; on `True` run
`_initiate_destination_chain_action`, whose simulated mint always succeeds and
unconditionally ends with `processed_txs.add(tx_hash)`; on `False` only log. -/
def processEvent (cfg : Config) (processed : List String) (e : EventData)
    (r : OracleResult) : ProcessResult :=
  if e.txHash ∈ processed then
    ⟨processed, false, .skippedDuplicate⟩
  else
    let call := oracleCall cfg e r
    if call.2 then
      ⟨e.txHash :: processed, call.1.isSome, .acted⟩
    else
      ⟨processed, call.1.isSome, .rejected⟩

/-- The `for event in event_filter: self._process_event(event)` loop: events
are processed strictly in order, each against the set left by its
predecessors.  `ora` gives the oracle response for each event; `actionLog` is
the (ghost) ordered list of txHashes for which the destination action was
initiated.  Returns the final set, the final action log, and one outcome per
event. -/
def processEvents (cfg : Config) (ora : EventData → OracleResult) :
    List String → List String → List EventData →
    List String × List String × List EventOutcome
  | processed, actionLog, [] => (processed, actionLog, [])
  | processed, actionLog, e :: rest =>
      let r := processEvent cfg processed e (ora e)
      let actionLog' := if r.outcome = .acted then actionLog ++ [e.txHash] else actionLog
      let res := processEvents cfg ora r.processed actionLog' rest
      (res.1, res.2.1, r.outcome :: res.2.2)

/-- Mutable state of the `listen` loop: `last_scanned_block`, the
`processed_txs` set (as a list of hex strings), and the ghost log of initiated
destination actions. -/
structure RelayerState where
  lastScanned : Int
  processed : List String
  actionLog : List String
deriving DecidableEq, Repr

/-- The external inputs one iteration of the `while True` loop consumes:
the result of `get_latest_block_number` (`none` = query failed), the result of
`get_logs` (`none` = the fetch raised; only consulted when a scan happens),
and the oracle response for each event. -/
structure CycleInput where
  height : Option Int
  fetch : Option (List EventData)
  oracle : EventData → OracleResult

/-- Observable outcome of one loop iteration, mirroring the log line the
source emits: height-query failure (warning, longer sleep), no new blocks
(info), fetch failure (the exception is caught, checkpoint line skipped), or a
completed scan of `[fromBlock, toBlock]` with the per-event outcomes. -/
inductive CycleOutcome where
  | heightFailure
  | noNewBlocks (latest : Int)
  | fetchFailure (fromBlock toBlock : Int)
  | scanned (fromBlock toBlock : Int) (outcomes : List EventOutcome)
deriving DecidableEq, Repr

/-- The severity of the log line each cycle outcome produces (lines 254, 263,
281/283 of the source).  A lower-than-checkpoint height takes the
`noNewBlocks` branch and is therefore logged at `info`. -/
inductive LogLevel where
  | info
  | warning
deriving DecidableEq, Repr

/-- Maps each cycle outcome to the level of the line the source logs for it. -/
def cycleLogLevel : CycleOutcome → LogLevel
  | .heightFailure => .warning
  | .noNewBlocks _ => .info
  | .fetchFailure _ _ => .warning
  | .scanned _ _ _ => .info

/-- The block range one cycle scans, from lines 259-260 of the source:
`from_block = last_scanned_block + 1` and
`to_block = min(latest_block, from_block + block_range)`. -/
def scanRange (blockRange : Nat) (checkpoint latest : Int) : Int × Int :=
  (checkpoint + 1, min latest (checkpoint + 1 + (blockRange : Int)))

/-- One iteration of the `while True` loop in `listen` (lines 250-285):
query the height (failure → warn and retry later); compute the range; if
`from_block > latest_block` log "No new blocks" and wait; fetch the logs
(an exception skips the checkpoint assignment — the `except` handlers at
lines 280-283); otherwise process every event and set
`last_scanned_block = to_block`. -/
def listenCycle (cfg : Config) (blockRange : Nat) (st : RelayerState)
    (inp : CycleInput) : RelayerState × CycleOutcome :=
  match inp.height with
  | none => (st, .heightFailure)
  | some latest =>
      let fromBlock := (scanRange blockRange st.lastScanned latest).1
      let toBlock := (scanRange blockRange st.lastScanned latest).2
      if fromBlock > latest then (st, .noNewBlocks latest)
      else
        match inp.fetch with
        | none => (st, .fetchFailure fromBlock toBlock)
        | some events =>
            let res := processEvents cfg inp.oracle st.processed st.actionLog events
            (⟨toBlock, res.1, res.2.1⟩, .scanned fromBlock toBlock res.2.2)

/-- Runs the loop over a list of cycle inputs (the process lifetime). -/
def runCycles (cfg : Config) (blockRange : Nat) :
    RelayerState → List CycleInput → RelayerState
  | st, [] => st
  | st, inp :: rest => runCycles cfg blockRange (listenCycle cfg blockRange st inp).1 rest

/-- Startup (line 245): `last_scanned_block = get_latest_block_number() - 1`,
with an empty processed set and no actions yet. -/
def initialState (h0 : Int) : RelayerState :=
  ⟨h0 - 1, [], []⟩

/-! ### Shared lemmas about the pipeline -/

/-- Each run of the event loop produces exactly one outcome per event: no
event can abort the iteration over the fetched batch. -/
theorem processEvents_outcomes_length (cfg : Config) (ora : EventData → OracleResult) :
    ∀ (events : List EventData) (processed actionLog : List String),
      (processEvents cfg ora processed actionLog events).2.2.length = events.length := by
  intro events
  induction events with
  | nil => intro processed actionLog; rfl
  | cons e rest ih =>
      intro processed actionLog
      simp [processEvents, ih]

/-- Invariant preservation through one batch: if the processed set and the
action log hold exactly the same txHashes and the log has no duplicates, the
same holds after processing any list of events. -/
theorem processEvents_dedup (cfg : Config) (ora : EventData → OracleResult) :
    ∀ (events : List EventData) (processed actionLog : List String),
      (∀ tx, tx ∈ processed ↔ tx ∈ actionLog) → actionLog.Nodup →
      (∀ tx, tx ∈ (processEvents cfg ora processed actionLog events).1 ↔
          tx ∈ (processEvents cfg ora processed actionLog events).2.1) ∧
        (processEvents cfg ora processed actionLog events).2.1.Nodup := by
  intro events
  induction events with
  | nil => intro processed actionLog hmem hnd; exact ⟨hmem, hnd⟩
  | cons e rest ih =>
      intro processed actionLog hmem hnd
      by_cases hdup : e.txHash ∈ processed
      · have hpe : processEvent cfg processed e (ora e) =
            ⟨processed, false, .skippedDuplicate⟩ := by
          simp [processEvent, hdup]
        simpa [processEvents, hpe] using ih processed actionLog hmem hnd
      · by_cases hv : (oracleCall cfg e (ora e)).2
        · have hpe : processEvent cfg processed e (ora e) =
              ⟨e.txHash :: processed, (oracleCall cfg e (ora e)).1.isSome, .acted⟩ := by
            simp [processEvent, hdup, hv]
          have hnotlog : e.txHash ∉ actionLog := fun h => hdup ((hmem e.txHash).mpr h)
          have hmem' : ∀ tx, tx ∈ e.txHash :: processed ↔ tx ∈ actionLog ++ [e.txHash] := by
            intro tx
            simp [List.mem_cons, List.mem_append, hmem tx]
            tauto
          have hnd' : (actionLog ++ [e.txHash]).Nodup := by
            simp [List.nodup_append, hnd, hnotlog]
          simpa [processEvents, hpe] using
            ih (e.txHash :: processed) (actionLog ++ [e.txHash]) hmem' hnd'
        · have hpe : processEvent cfg processed e (ora e) =
              ⟨processed, (oracleCall cfg e (ora e)).1.isSome, .rejected⟩ := by
            simp [processEvent, hdup, hv]
          simpa [processEvents, hpe] using ih processed actionLog hmem hnd

/-- One cycle never decreases `last_scanned_block`. -/
theorem listenCycle_lastScanned_le (cfg : Config) (br : Nat) (st : RelayerState)
    (inp : CycleInput) :
    st.lastScanned ≤ (listenCycle cfg br st inp).1.lastScanned := by
  obtain ⟨height, fetch, ora⟩ := inp
  cases height with
  | none => exact le_refl _
  | some latest =>
      by_cases hg : st.lastScanned + 1 > latest
      · simp [listenCycle, scanRange, hg]
      · cases fetch with
        | none => simp [listenCycle, scanRange, hg]
        | some events =>
            simp [listenCycle, scanRange, hg]
            omega

/-- `last_scanned_block` is non-decreasing over any sequence of cycles. -/
theorem runCycles_lastScanned_le (cfg : Config) (br : Nat) :
    ∀ (inps : List CycleInput) (st : RelayerState),
      st.lastScanned ≤ (runCycles cfg br st inps).lastScanned := by
  intro inps
  induction inps with
  | nil => intro st; exact le_refl _
  | cons inp rest ih =>
      intro st
      exact le_trans (listenCycle_lastScanned_le cfg br st inp) (ih _)

/-- Invariant preservation through one cycle. -/
theorem listenCycle_dedup (cfg : Config) (br : Nat) (st : RelayerState)
    (inp : CycleInput)
    (hmem : ∀ tx, tx ∈ st.processed ↔ tx ∈ st.actionLog)
    (hnd : st.actionLog.Nodup) :
    (∀ tx, tx ∈ (listenCycle cfg br st inp).1.processed ↔
        tx ∈ (listenCycle cfg br st inp).1.actionLog) ∧
      (listenCycle cfg br st inp).1.actionLog.Nodup := by
  obtain ⟨height, fetch, ora⟩ := inp
  cases height with
  | none => exact ⟨hmem, hnd⟩
  | some latest =>
      by_cases hg : st.lastScanned + 1 > latest
      · simpa [listenCycle, scanRange, hg] using ⟨hmem, hnd⟩
      · cases fetch with
        | none => simpa [listenCycle, scanRange, hg] using ⟨hmem, hnd⟩
        | some events =>
            simpa [listenCycle, scanRange, hg] using
              processEvents_dedup cfg ora events st.processed st.actionLog hmem hnd

/-- Invariant over the whole lifetime. -/
theorem runCycles_dedup (cfg : Config) (br : Nat) :
    ∀ (inps : List CycleInput) (st : RelayerState),
      (∀ tx, tx ∈ st.processed ↔ tx ∈ st.actionLog) → st.actionLog.Nodup →
      (∀ tx, tx ∈ (runCycles cfg br st inps).processed ↔
          tx ∈ (runCycles cfg br st inps).actionLog) ∧
        (runCycles cfg br st inps).actionLog.Nodup := by
  intro inps
  induction inps with
  | nil => intro st hmem hnd; exact ⟨hmem, hnd⟩
  | cons inp rest ih =>
      intro st hmem hnd
      obtain ⟨hmem', hnd'⟩ := listenCycle_dedup cfg br st inp hmem hnd
      exact ih _ hmem' hnd'

/-! ### Concrete fixtures -/

/-- A configuration with the oracle endpoint configured, as in `CONFIG`. -/
def cfgOracle : Config :=
  ⟨"Ethereum", "Polygon", some "https://api.mock-oracle.io/validate-tx", some "key"⟩

/-- A configuration whose `oracle_api` entry has no URL. -/
def cfgNoOracle : Config := ⟨"Ethereum", "Polygon", none, some "key"⟩

/-- A sample event with txHash `0xabc` and amount 5. -/
def eAbc : EventData := ⟨"0xabc", "0x1122", 5⟩

/-- Oracle behaviour accepting every call. -/
def oraAccept : EventData → OracleResult := fun _ => .response 200 (some true)

/-- Oracle behaviour failing every call with a transport error. -/
def oraFail : EventData → OracleResult := fun _ => .transportError

/-- Number of destination actions initiated when the same event is processed
twice in a row, the second run over the set left by the first. -/
def twiceActions (cfg : Config) (s : List String) (e : EventData)
    (r1 r2 : OracleResult) : Nat :=
  let p1 := processEvent cfg s e r1
  let p2 := processEvent cfg p1.processed e r2
  (if p1.outcome = .acted then 1 else 0) + (if p2.outcome = .acted then 1 else 0)

/-! ### Claims -/

/-- C1 counterexample: processing the same event twice with the oracle
unreachable both times yields zero ActionExecutor invocations, not exactly
one — the claim as stated fails when validation rejects both runs. -/
theorem c1_exactly_one_action_cex :
    twiceActions cfgOracle [] eAbc .transportError .transportError = 0 ∧
    twiceActions cfgOracle [] eAbc .transportError .transportError ≠ 1 := by
  decide

/-- C1 amended: processing the same event twice results in at most one
destination action; if the first run validates `Accepted`, it results in
exactly one, and the second run is discarded by the dedup check without
issuing any oracle request. -/
theorem c1_dedup_at_most_one_action (cfg : Config) (s : List String)
    (e : EventData) (r1 r2 : OracleResult) (hs : e.txHash ∉ s) :
    twiceActions cfg s e r1 r2 ≤ 1 ∧
    (validateWithOracle cfg e r1 = true →
      twiceActions cfg s e r1 r2 = 1 ∧
      (processEvent cfg (processEvent cfg s e r1).processed e r2).outcome
          = .skippedDuplicate ∧
      (processEvent cfg (processEvent cfg s e r1).processed e r2).validatorRequested
          = false) := by
  by_cases h1 : (oracleCall cfg e r1).2
  · constructor
    · simp [twiceActions, processEvent, hs, h1]
    · intro _
      refine ⟨?_, ?_, ?_⟩ <;> simp [twiceActions, processEvent, hs, h1]
  · constructor
    · by_cases h2 : (oracleCall cfg e r2).2 <;>
        simp [twiceActions, processEvent, hs, h1, h2]
    · intro hv
      exact absurd hv (by simp [validateWithOracle, h1])

/-- Witness for C1 at a concrete accepted event. -/
theorem c1_dedup_at_most_one_action_witness :
    eAbc.txHash ∉ ([] : List String) ∧
    (twiceActions cfgOracle [] eAbc (.response 200 (some true))
        (.response 200 (some true)) ≤ 1 ∧
    (validateWithOracle cfgOracle eAbc (.response 200 (some true)) = true →
      twiceActions cfgOracle [] eAbc (.response 200 (some true))
          (.response 200 (some true)) = 1 ∧
      (processEvent cfgOracle
          (processEvent cfgOracle [] eAbc (.response 200 (some true))).processed
          eAbc (.response 200 (some true))).outcome = .skippedDuplicate ∧
      (processEvent cfgOracle
          (processEvent cfgOracle [] eAbc (.response 200 (some true))).processed
          eAbc (.response 200 (some true))).validatorRequested = false)) :=
  ⟨by decide, c1_dedup_at_most_one_action cfgOracle [] eAbc
    (.response 200 (some true)) (.response 200 (some true)) (by decide)⟩

/-- C4: with the oracle configured, a rejection (`isValid` false), a non-200
status, a malformed body, or a transport error makes `_validate_with_oracle`
return `False`; `_process_event` then never initiates the destination action
and leaves the processed set unchanged. -/
theorem c4_fail_closed_validation (cfg : Config) (url : String) (e : EventData)
    (r : OracleResult) (s : List String)
    (hurl : cfg.oracleUrl = some url) (hne : url ≠ "")
    (hr : r = .transportError ∨
      ∃ status body, r = .response status body ∧
        (status ≠ 200 ∨ body = none ∨ body = some false)) :
    validateWithOracle cfg e r = false ∧
    (processEvent cfg s e r).outcome ≠ .acted ∧
    (processEvent cfg s e r).processed = s := by
  have hv : evalOracleResponse r = false := by
    rcases hr with h | ⟨status, body, h, hbad⟩
    · simp [h, evalOracleResponse]
    · subst h
      rcases hbad with h | h | h <;> simp [evalOracleResponse, h]
  have hcall : (oracleCall cfg e r).2 = false := by
    simp [oracleCall, hurl, hne, hv]
  refine ⟨by simp [validateWithOracle, hcall], ?_, ?_⟩ <;>
    by_cases hs : e.txHash ∈ s <;> simp [processEvent, hs, hcall]

/-- Witness for C4 at a concrete 404 response. -/
theorem c4_fail_closed_validation_witness :
    cfgOracle.oracleUrl = some "https://api.mock-oracle.io/validate-tx" ∧
    "https://api.mock-oracle.io/validate-tx" ≠ "" ∧
    ((OracleResult.response 404 (some true)) = .transportError ∨
      ∃ status body, (OracleResult.response 404 (some true)) = .response status body ∧
        (status ≠ 200 ∨ body = none ∨ body = some false)) ∧
    (validateWithOracle cfgOracle eAbc (.response 404 (some true)) = false ∧
     (processEvent cfgOracle [] eAbc (.response 404 (some true))).outcome ≠ .acted ∧
     (processEvent cfgOracle [] eAbc (.response 404 (some true))).processed = []) := by
  refine ⟨rfl, by decide, Or.inr ⟨404, some true, rfl, Or.inl (by decide)⟩, ?_⟩
  exact c4_fail_closed_validation cfgOracle "https://api.mock-oracle.io/validate-tx"
    eAbc (.response 404 (some true)) [] rfl (by decide)
    (Or.inr ⟨404, some true, rfl, Or.inl (by decide)⟩)

/-- C8 counterexample: the oracle request built for an event with amount 5
carries the raw integer `5` in the `amount` field, not the decimal string
`"5"` — the source puts `event_data["args"]["amount"]` (a Python int)
straight into the JSON payload. -/
theorem c8_amount_not_decimal_string_cex :
    (buildOracleRequest cfgOracle "https://api.mock-oracle.io/validate-tx" eAbc).amount
        = .num 5 ∧
    (buildOracleRequest cfgOracle "https://api.mock-oracle.io/validate-tx" eAbc).amount
        ≠ .str "5" := by
  decide

/-- C8 amended: every oracle validation call is an HTTP POST to the
configured URL whose body carries `transactionHash` as a hex string,
`sourceChain` as a string, and `amount` as the raw integer (a JSON number,
not a decimal string), with the `x-api-key` header carrying the API key;
with the oracle configured, the event is accepted iff the response has HTTP
status 200 and body field `isValid` true, and a transport error rejects. -/
theorem c8_oracle_call_shape (cfg : Config) (url : String) (e : EventData)
    (status : Nat) (body : Option Bool)
    (hurl : cfg.oracleUrl = some url) (hne : url ≠ "") :
    (oracleCall cfg e (.response status body)).1 =
      some ⟨"POST", url, cfg.oracleApiKey.getD "", .str e.txHash,
        .str cfg.sourceChainName, .num e.amount⟩ ∧
    (validateWithOracle cfg e (.response status body) = true ↔
      status = 200 ∧ body = some true) ∧
    validateWithOracle cfg e .transportError = false := by
  refine ⟨by simp [oracleCall, hurl, hne, buildOracleRequest], ?_,
    by simp [validateWithOracle, oracleCall, hurl, hne, evalOracleResponse]⟩
  simp [validateWithOracle, oracleCall, hurl, hne, evalOracleResponse]
  by_cases h2 : status = 200
  · subst h2
    cases body <;> simp
  · simp [h2]

/-- Witness for C8 at a concrete accepted call. -/
theorem c8_oracle_call_shape_witness :
    cfgOracle.oracleUrl = some "https://api.mock-oracle.io/validate-tx" ∧
    "https://api.mock-oracle.io/validate-tx" ≠ "" ∧
    ((oracleCall cfgOracle eAbc (.response 200 (some true))).1 =
      some ⟨"POST", "https://api.mock-oracle.io/validate-tx",
        cfgOracle.oracleApiKey.getD "", .str eAbc.txHash,
        .str cfgOracle.sourceChainName, .num eAbc.amount⟩ ∧
    (validateWithOracle cfgOracle eAbc (.response 200 (some true)) = true ↔
      200 = 200 ∧ (some true : Option Bool) = some true) ∧
    validateWithOracle cfgOracle eAbc .transportError = false) := by
  refine ⟨rfl, by decide, ?_⟩
  exact c8_oracle_call_shape cfgOracle "https://api.mock-oracle.io/validate-tx"
    eAbc 200 (some true) rfl (by decide)

/-- C9: if the oracle API URL is absent from the configuration,
`_validate_with_oracle` returns `True` without issuing any request, so every
deduplicated event is treated as accepted and proceeds to the destination
action. -/
theorem c9_missing_oracle_url_fail_open (cfg : Config) (e : EventData)
    (r : OracleResult) (s : List String)
    (hurl : cfg.oracleUrl = none) (hs : e.txHash ∉ s) :
    oracleCall cfg e r = (none, true) ∧
    validateWithOracle cfg e r = true ∧
    (processEvent cfg s e r).outcome = .acted ∧
    e.txHash ∈ (processEvent cfg s e r).processed ∧
    (processEvent cfg s e r).validatorRequested = false := by
  have hc : oracleCall cfg e r = (none, true) := by simp [oracleCall, hurl]
  refine ⟨hc, by simp [validateWithOracle, hc], ?_, ?_, ?_⟩ <;>
    simp [processEvent, hs, hc]

/-- Witness for C9 at a concrete configuration and event. -/
theorem c9_missing_oracle_url_fail_open_witness :
    cfgNoOracle.oracleUrl = none ∧ eAbc.txHash ∉ ([] : List String) ∧
    (oracleCall cfgNoOracle eAbc .transportError = (none, true) ∧
     validateWithOracle cfgNoOracle eAbc .transportError = true ∧
     (processEvent cfgNoOracle [] eAbc .transportError).outcome = .acted ∧
     eAbc.txHash ∈ (processEvent cfgNoOracle [] eAbc .transportError).processed ∧
     (processEvent cfgNoOracle [] eAbc .transportError).validatorRequested = false) :=
  ⟨by decide, by decide,
    c9_missing_oracle_url_fail_open cfgNoOracle eAbc .transportError []
      (by decide) (by decide)⟩

/-- Listener state with checkpoint 999 and nothing processed or acted. -/
def st999 : RelayerState := ⟨999, [], []⟩

/-- C2 counterexample: with checkpoint 999, height 2000 and window 100 the
code scans `[1000, 1100]` — `to = min(H, from + maxRange)`, spanning 101
blocks — whereas the claimed formula `min(H, from + maxRange - 1)` gives
1099. -/
theorem c2_range_formula_cex :
    (listenCycle cfgOracle 100 st999 ⟨some 2000, some [], oraFail⟩).2
        = .scanned 1000 1100 [] ∧
    (1100 : Int) ≠ min 2000 (1000 + 100 - 1) := by
  decide

/-- C2 amended: in every cycle whose height query returns `H` strictly above
the checkpoint and whose fetch succeeds, the scanned range is
`from = checkpoint + 1` and `to = min(H, from + maxRange)` — one block more
than the claimed `from + maxRange - 1` when clamped by the window — and the
checkpoint advances to `to`; at startup the checkpoint is the initial height
minus one. -/
theorem c2_scan_range (cfg : Config) (br : Nat) (st : RelayerState)
    (H h0 : Int) (events : List EventData) (ora : EventData → OracleResult)
    (hH : st.lastScanned < H) :
    (∃ outs, (listenCycle cfg br st ⟨some H, some events, ora⟩).2 =
        .scanned (st.lastScanned + 1) (min H (st.lastScanned + 1 + (br : Int))) outs) ∧
    (listenCycle cfg br st ⟨some H, some events, ora⟩).1.lastScanned
        = min H (st.lastScanned + 1 + (br : Int)) ∧
    (initialState h0).lastScanned = h0 - 1 := by
  have hg : ¬ st.lastScanned + 1 > H := by omega
  refine ⟨⟨(processEvents cfg ora st.processed st.actionLog events).2.2, ?_⟩, ?_, rfl⟩ <;>
    simp [listenCycle, scanRange, hg]

/-- Witness for C2 at checkpoint 999, height 1050, window 100. -/
theorem c2_scan_range_witness :
    st999.lastScanned < 1050 ∧
    ((∃ outs, (listenCycle cfgOracle 100 st999 ⟨some 1050, some [], oraFail⟩).2 =
        .scanned (st999.lastScanned + 1)
          (min 1050 (st999.lastScanned + 1 + ((100 : Nat) : Int))) outs) ∧
     (listenCycle cfgOracle 100 st999 ⟨some 1050, some [], oraFail⟩).1.lastScanned
        = min 1050 (st999.lastScanned + 1 + ((100 : Nat) : Int)) ∧
     (initialState 1000).lastScanned = 1000 - 1) :=
  ⟨by decide, c2_scan_range cfgOracle 100 st999 1050 1000 [] oraFail (by decide)⟩

/-- C3 counterexample: the fetch for `[1000, 1050]` fails at height 1050 and
the checkpoint stays at 999, but the next cycle, seeing height 1060, scans
`[1000, 1060]` — not the identical range the claim promises. -/
theorem c3_same_range_retry_cex :
    (listenCycle cfgOracle 100 st999 ⟨some 1050, none, oraFail⟩).1 = st999 ∧
    (listenCycle cfgOracle 100 st999 ⟨some 1050, none, oraFail⟩).2
        = .fetchFailure 1000 1050 ∧
    (listenCycle cfgOracle 100
        (listenCycle cfgOracle 100 st999 ⟨some 1050, none, oraFail⟩).1
        ⟨some 1060, some [], oraFail⟩).2 = .scanned 1000 1060 [] ∧
    CycleOutcome.scanned 1000 1060 [] ≠ .scanned 1000 1050 [] := by
  decide

/-- C3 amended: when the fetch for `[from, to]` fails the whole state — in
particular the checkpoint — is unchanged, so the next cycle recomputes the
same `from = checkpoint + 1`; if the height query returns the same `H` it
retries exactly the same `[from, to]`, and for any height `H' ≥ H` the
retried range starts at the same `from` and reaches at least `to`
(at-least-once scanning of every block of the failed range). -/
theorem c3_fetch_failure_retry (cfg : Config) (br : Nat) (st : RelayerState)
    (H H' : Int) (ora : EventData → OracleResult)
    (hH : st.lastScanned < H) (hH' : H ≤ H') :
    (listenCycle cfg br st ⟨some H, none, ora⟩).1 = st ∧
    (listenCycle cfg br st ⟨some H, none, ora⟩).2 =
      .fetchFailure (scanRange br st.lastScanned H).1 (scanRange br st.lastScanned H).2 ∧
    scanRange br ((listenCycle cfg br st ⟨some H, none, ora⟩).1.lastScanned) H
      = scanRange br st.lastScanned H ∧
    (scanRange br st.lastScanned H').1 = (scanRange br st.lastScanned H).1 ∧
    (scanRange br st.lastScanned H).2 ≤ (scanRange br st.lastScanned H').2 := by
  have hg : ¬ st.lastScanned + 1 > H := by omega
  refine ⟨?_, ?_, ?_, rfl, ?_⟩
  · simp [listenCycle, scanRange, hg]
  · simp [listenCycle, scanRange, hg]
  · simp [listenCycle, scanRange, hg]
  · exact min_le_min hH' le_rfl

/-- Witness for C3: failed fetch at height 1050, retry seen at height 1060. -/
theorem c3_fetch_failure_retry_witness :
    st999.lastScanned < 1050 ∧ (1050 : Int) ≤ 1060 ∧
    ((listenCycle cfgOracle 100 st999 ⟨some 1050, none, oraFail⟩).1 = st999 ∧
     (listenCycle cfgOracle 100 st999 ⟨some 1050, none, oraFail⟩).2 =
       .fetchFailure (scanRange 100 st999.lastScanned 1050).1
         (scanRange 100 st999.lastScanned 1050).2 ∧
     scanRange 100 ((listenCycle cfgOracle 100 st999 ⟨some 1050, none, oraFail⟩).1.lastScanned) 1050
       = scanRange 100 st999.lastScanned 1050 ∧
     (scanRange 100 st999.lastScanned 1060).1 = (scanRange 100 st999.lastScanned 1050).1 ∧
     (scanRange 100 st999.lastScanned 1050).2 ≤ (scanRange 100 st999.lastScanned 1060).2) :=
  ⟨by decide, by decide,
    c3_fetch_failure_retry cfgOracle 100 st999 1050 1060 oraFail (by decide) (by decide)⟩

/-- C5: a cycle whose fetch returns a batch always completes: every event of
the batch gets exactly one reported outcome regardless of the oracle
behaviour (all validation failures are caught inside
`_validate_with_oracle`), and the checkpoint still advances to `to`. -/
theorem c5_no_event_aborts_cycle (cfg : Config) (br : Nat) (st : RelayerState)
    (H : Int) (events : List EventData) (ora : EventData → OracleResult)
    (hH : st.lastScanned < H) :
    ∃ outs, (listenCycle cfg br st ⟨some H, some events, ora⟩).2 =
        .scanned (scanRange br st.lastScanned H).1 (scanRange br st.lastScanned H).2 outs ∧
      outs.length = events.length ∧
      (listenCycle cfg br st ⟨some H, some events, ora⟩).1.lastScanned
        = (scanRange br st.lastScanned H).2 ∧
      st.lastScanned < (listenCycle cfg br st ⟨some H, some events, ora⟩).1.lastScanned := by
  have hg : ¬ st.lastScanned + 1 > H := by omega
  refine ⟨(processEvents cfg ora st.processed st.actionLog events).2.2, ?_, ?_, ?_, ?_⟩
  · simp [listenCycle, scanRange, hg]
  · exact processEvents_outcomes_length cfg ora events st.processed st.actionLog
  · simp [listenCycle, scanRange, hg]
  · simp [listenCycle, scanRange, hg]
    omega

/-- Witness for C5: one event whose oracle call fails still yields a
completed scan with one outcome and an advanced checkpoint. -/
theorem c5_no_event_aborts_cycle_witness :
    st999.lastScanned < 1050 ∧
    ∃ outs, (listenCycle cfgOracle 100 st999 ⟨some 1050, some [eAbc], oraFail⟩).2 =
        .scanned (scanRange 100 st999.lastScanned 1050).1
          (scanRange 100 st999.lastScanned 1050).2 outs ∧
      outs.length = [eAbc].length ∧
      (listenCycle cfgOracle 100 st999 ⟨some 1050, some [eAbc], oraFail⟩).1.lastScanned
        = (scanRange 100 st999.lastScanned 1050).2 ∧
      st999.lastScanned <
        (listenCycle cfgOracle 100 st999 ⟨some 1050, some [eAbc], oraFail⟩).1.lastScanned :=
  ⟨by decide, c5_no_event_aborts_cycle cfgOracle 100 st999 1050 [eAbc] oraFail (by decide)⟩

/-- C6: the checkpoint is non-decreasing across any whole run of the loop,
and after every cycle that completes a scan of `[f, t]` — whatever the batch
contents, including an empty one — the checkpoint equals `t` and has strictly
advanced. -/
theorem c6_checkpoint_monotone (cfg : Config) (br : Nat) (st : RelayerState)
    (inps : List CycleInput) (inp : CycleInput) (f t : Int)
    (outs : List EventOutcome)
    (h : (listenCycle cfg br st inp).2 = .scanned f t outs) :
    st.lastScanned ≤ (runCycles cfg br st inps).lastScanned ∧
    (listenCycle cfg br st inp).1.lastScanned = t ∧
    st.lastScanned < t := by
  refine ⟨runCycles_lastScanned_le cfg br inps st, ?_⟩
  obtain ⟨height, fetch, ora⟩ := inp
  cases height with
  | none => simp [listenCycle] at h
  | some latest =>
      by_cases hg : st.lastScanned + 1 > latest
      · simp [listenCycle, scanRange, hg] at h
      · cases fetch with
        | none => simp [listenCycle, scanRange, hg] at h
        | some events =>
            simp only [listenCycle, scanRange] at h ⊢
            rw [if_neg hg] at h ⊢
            simp only [CycleOutcome.scanned.injEq] at h
            obtain ⟨h1, h2, h3⟩ := h
            subst h2
            constructor
            · rfl
            · have hle : st.lastScanned + 1 ≤ latest := by omega
              calc st.lastScanned < st.lastScanned + 1 := by omega
                _ ≤ min latest (st.lastScanned + 1 + (br : Int)) :=
                    le_min hle (by omega)

/-- Witness for C6: a one-cycle run scanning `[1000, 1050]`. -/
theorem c6_checkpoint_monotone_witness :
    (listenCycle cfgOracle 100 st999 ⟨some 1050, some [], oraFail⟩).2
        = .scanned 1000 1050 [] ∧
    (st999.lastScanned ≤
        (runCycles cfgOracle 100 st999 [⟨some 1050, some [], oraFail⟩]).lastScanned ∧
      (listenCycle cfgOracle 100 st999 ⟨some 1050, some [], oraFail⟩).1.lastScanned = 1050 ∧
      st999.lastScanned < 1050) :=
  ⟨by decide, c6_checkpoint_monotone cfgOracle 100 st999
    [⟨some 1050, some [], oraFail⟩] ⟨some 1050, some [], oraFail⟩ 1000 1050 []
    (by decide)⟩

/-- C7 counterexample: with checkpoint 999 a reported height of 990 (below
the checkpoint) takes the very same `noNewBlocks` branch as the ordinary
height-999 case and is logged at `info` level — no warning distinguishes the
anomaly. -/
theorem c7_low_height_not_warned_cex :
    (listenCycle cfgOracle 100 st999 ⟨some 990, some [], oraFail⟩).2
        = .noNewBlocks 990 ∧
    (listenCycle cfgOracle 100 st999 ⟨some 999, some [], oraFail⟩).2
        = .noNewBlocks 999 ∧
    cycleLogLevel (.noNewBlocks 990) = .info ∧
    cycleLogLevel (.noNewBlocks 990) ≠ .warning := by
  decide

/-- C7 amended: a reported height strictly below the checkpoint is not
singled out: the cycle takes the ordinary no-new-blocks branch, logs the
ordinary `info` line (never a warning), and leaves the state unchanged. -/
theorem c7_low_height_treated_as_no_new_blocks (cfg : Config) (br : Nat)
    (st : RelayerState) (H : Int) (fetch : Option (List EventData))
    (ora : EventData → OracleResult) (hH : H < st.lastScanned) :
    (listenCycle cfg br st ⟨some H, fetch, ora⟩).2 = .noNewBlocks H ∧
    cycleLogLevel (listenCycle cfg br st ⟨some H, fetch, ora⟩).2 = .info ∧
    (listenCycle cfg br st ⟨some H, fetch, ora⟩).1 = st := by
  have hg : st.lastScanned + 1 > H := by omega
  refine ⟨?_, ?_, ?_⟩ <;> simp [listenCycle, scanRange, hg, cycleLogLevel]

/-- Witness for C7 at checkpoint 999, height 990. -/
theorem c7_low_height_treated_as_no_new_blocks_witness :
    (990 : Int) < st999.lastScanned ∧
    ((listenCycle cfgOracle 100 st999 ⟨some 990, some [], oraFail⟩).2 = .noNewBlocks 990 ∧
     cycleLogLevel (listenCycle cfgOracle 100 st999 ⟨some 990, some [], oraFail⟩).2 = .info ∧
     (listenCycle cfgOracle 100 st999 ⟨some 990, some [], oraFail⟩).1 = st999) :=
  ⟨by decide, c7_low_height_treated_as_no_new_blocks cfgOracle 100 st999 990
    (some []) oraFail (by decide)⟩

/-- C10: in every state reachable from startup, a txHash is in the processed
set iff the destination action was initiated for it, and the action log has
no duplicates (each action initiated exactly once); moreover the simulated
action cannot fail — whenever validation passes for a not-yet-processed
event, the action is initiated and the txHash inserted unconditionally. -/
theorem c10_processed_iff_acted (cfg : Config) (br : Nat) (h0 : Int)
    (inps : List CycleInput) (cfg2 : Config) (s : List String) (e : EventData)
    (r : OracleResult)
    (hv : validateWithOracle cfg2 e r = true) (hs : e.txHash ∉ s) :
    (∀ tx, tx ∈ (runCycles cfg br (initialState h0) inps).processed ↔
        tx ∈ (runCycles cfg br (initialState h0) inps).actionLog) ∧
    (runCycles cfg br (initialState h0) inps).actionLog.Nodup ∧
    (processEvent cfg2 s e r).outcome = .acted ∧
    (processEvent cfg2 s e r).processed = e.txHash :: s := by
  obtain ⟨h1, h2⟩ := runCycles_dedup cfg br inps (initialState h0)
    (by intro tx; simp [initialState]) (by simp [initialState])
  have hc : (oracleCall cfg2 e r).2 = true := hv
  refine ⟨h1, h2, ?_, ?_⟩ <;> simp [processEvent, hs, hc]

/-- Witness for C10 over a lifetime of one scanning cycle. -/
theorem c10_processed_iff_acted_witness :
    validateWithOracle cfgNoOracle eAbc .transportError = true ∧
    eAbc.txHash ∉ ([] : List String) ∧
    ((∀ tx, tx ∈ (runCycles cfgOracle 100 (initialState 1000)
          [⟨some 1050, some [eAbc], oraAccept⟩]).processed ↔
        tx ∈ (runCycles cfgOracle 100 (initialState 1000)
          [⟨some 1050, some [eAbc], oraAccept⟩]).actionLog) ∧
     (runCycles cfgOracle 100 (initialState 1000)
        [⟨some 1050, some [eAbc], oraAccept⟩]).actionLog.Nodup ∧
     (processEvent cfgNoOracle [] eAbc .transportError).outcome = .acted ∧
     (processEvent cfgNoOracle [] eAbc .transportError).processed = [eAbc.txHash]) :=
  ⟨by decide, by decide,
    c10_processed_iff_acted cfgOracle 100 1000 [⟨some 1050, some [eAbc], oraAccept⟩]
      cfgNoOracle [] eAbc .transportError (by decide) (by decide)⟩

end Bridge
